import Mathlib

/-!
# CREATE statement execution and the RPC `Let` method

A shallow embedding of `db/create.go` (`executeCreateStatement`, `create`) and of
`web/rpc.go` (`rpc.Let`).

Go code with side effects is written in state-passing style.  The collaborators
whose code lives in other packages (`kvs`, `keys`, `uuid`, `item`) are fields of
an environment `Env σ` acting on an arbitrary world state `σ`; every call the two
functions make to a collaborator is recorded, in program order, in a trace of
`Event`s, together with what the call returned.
-/

namespace Surreal

/-! ## Data model -/

/-- Go `error` values; `Option Err` is an `error` that may be `nil`. -/
abbrev Err := String

/-- A non-nil `kvs.TX` transaction handle; `Option TX` is a handle that may be `nil`. -/
abbrev TX := Nat

/-- Go `[]byte`. -/
abbrev Bytes := List Nat

/-- The `kvs.KV` value returned by `txn.Get`. -/
abbrev KV := Option Bytes

/-- A yielded value (`interface{}`, non-nil); `Option Val` is one that may be `nil`. -/
abbrev Val := String

/-- The `Data` payload of a statement. -/
abbrev Data := String

/-- The `sql` tokens used for `Echo` and for `sql.AFTER`. -/
abbrev Token := Nat

/-- The `uuid` values. -/
abbrev UUID := Nat

/-- The record key `keys.Thing` built at lines 41 and 52. -/
structure keys.Thing where
  KV : String
  NS : String
  DB : String
  TB : String
  ID : String
deriving DecidableEq, Repr

/-- The elements of `ast.What`: the dynamic types the type assertions of the loop
tell apart (`*sql.Thing`, `*sql.Table`), the `*sql.Batch` built by `sql.NewBatch`
in `web/rpc.go`, and any other expression. -/
inductive sql.Expr where
  | Thing (TB : String) (ID : String)
  | Table (TB : String)
  | Batch (TB : String) (IDs : List String)
  | Other (tag : Nat)
deriving DecidableEq, Repr

/-- The fields of `sql.CreateStatement` that `db/create.go` reads. -/
structure sql.CreateStatement where
  KV : String
  NS : String
  DB : String
  What : List sql.Expr
  Data : Data
  Echo : Token
deriving DecidableEq, Repr

/-- The document `item.Doc`, identified by what `item.New` is given; the fields a
pipeline stage mutates live in the world state. -/
structure item.Doc where
  kv : KV
  txn : TX
  key : keys.Thing
deriving DecidableEq, Repr

/-- The constructor `item.New(kv, txn, key)`. -/
def item.New (kv : KV) (txn : TX) (key : keys.Thing) : item.Doc := ⟨kv, txn, key⟩

/-- One call made to a collaborator, with the values it was given and returned. -/
inductive Event where
  | Txn (writable : Bool) (err : Option Err) (txn : Option TX)
  | Rollback (txn : TX)
  | Commit (txn : TX) (err : Option Err)
  | Get (txn : TX) (key : Bytes) (err : Option Err)
  | NewV4 (u : UUID)
  | Merge (doc : item.Doc) (data : Data) (err : Option Err)
  | Allow (doc : item.Doc) (action : String) (ok : Bool)
  | StoreIndex (doc : item.Doc) (err : Option Err)
  | StartThing (doc : item.Doc) (err : Option Err)
  | StorePatch (doc : item.Doc) (err : Option Err)
  | Yield (doc : item.Doc) (echo : Token) (when : Token) (out : Option Val)
deriving DecidableEq, Repr

/-- The collaborators of `db/create.go`, as functions on a world state `σ`. -/
structure Env (σ : Type) where
  /-- The call `db.Txn(writable)`: a transaction or an error. -/
  Txn : Bool → σ → Except Err TX × σ
  /-- The method `txn.Get(key)`. -/
  Get : TX → Bytes → σ → (KV × Option Err) × σ
  /-- The method `txn.Commit()`. -/
  Commit : TX → σ → Option Err × σ
  /-- The method `txn.Rollback()`. -/
  Rollback : TX → σ → Option Err × σ
  /-- The method `key.Encode()` of `keys.Thing`. -/
  Encode : keys.Thing → Bytes
  /-- The call `uuid.NewV4().UUID`. -/
  NewV4 : σ → UUID × σ
  /-- The call `uuid.NewV5(ns, name)`. -/
  NewV5 : UUID → String → UUID
  /-- The method `String()` of a uuid. -/
  UUIDString : UUID → String
  /-- The method `doc.Merge(data)`. -/
  Merge : item.Doc → Data → σ → Option Err × σ
  /-- The method `doc.Allow(action)`. -/
  Allow : item.Doc → String → σ → Bool × σ
  /-- The method `doc.StoreIndex()`. -/
  StoreIndex : item.Doc → σ → Option Err × σ
  /-- The method `doc.StartThing()`. -/
  StartThing : item.Doc → σ → Option Err × σ
  /-- The method `doc.StorePatch()`. -/
  StorePatch : item.Doc → σ → Option Err × σ
  /-- The method `doc.Yield(echo, when)`. -/
  Yield : item.Doc → Token → Token → σ → Option Val × σ
  /-- The constant `sql.AFTER`. -/
  AFTER : Token

/-- What a call leaves behind: its return values, the world after it, and the
collaborator calls it made, in order. -/
structure Ret (σ : Type) (α : Type) where
  val : α
  world : σ
  trace : List Event

/-! ## `db/create.go` -/

/-- The function `create` (lines 72-98): returns `(out, err)`. -/
def create {σ : Type} (E : Env σ) (doc : item.Doc) (ast : sql.CreateStatement) (w : σ) :
    Ret σ (Option Val × Option Err) :=
  let m := E.Merge doc ast.Data w
  match m.1 with
  | some e => ⟨(none, some e), m.2, [Event.Merge doc ast.Data (some e)]⟩
  | none =>
    let a := E.Allow doc "CREATE" m.2
    if !a.1 then
      ⟨(none, none), a.2, [Event.Merge doc ast.Data none, Event.Allow doc "CREATE" a.1]⟩
    else
      let i := E.StoreIndex doc a.2
      match i.1 with
      | some e =>
        ⟨(none, some e), i.2,
          [Event.Merge doc ast.Data none, Event.Allow doc "CREATE" a.1,
           Event.StoreIndex doc (some e)]⟩
      | none =>
        let s := E.StartThing doc i.2
        match s.1 with
        | some e =>
          ⟨(none, some e), s.2,
            [Event.Merge doc ast.Data none, Event.Allow doc "CREATE" a.1,
             Event.StoreIndex doc none, Event.StartThing doc (some e)]⟩
        | none =>
          let p := E.StorePatch doc s.2
          match p.1 with
          | some e =>
            ⟨(none, some e), p.2,
              [Event.Merge doc ast.Data none, Event.Allow doc "CREATE" a.1,
               Event.StoreIndex doc none, Event.StartThing doc none,
               Event.StorePatch doc (some e)]⟩
          | none =>
            let y := E.Yield doc ast.Echo E.AFTER p.2
            ⟨(y.1, none), y.2,
              [Event.Merge doc ast.Data none, Event.Allow doc "CREATE" a.1,
               Event.StoreIndex doc none, Event.StartThing doc none,
               Event.StorePatch doc none,
               Event.Yield doc ast.Echo E.AFTER y.1]⟩

/-- The loop of lines 38-62 followed by the plain `return` of line 68, with `out`
the results appended so far.  A `return nil, err` inside the loop ends it.  The
two type assertions of the body are exclusive, so they are one `match`. -/
def forWhat {σ : Type} (E : Env σ) (txn : TX) (ast : sql.CreateStatement) :
    List sql.Expr → List Val → σ → Ret σ (List Val × Option Err)
  | [], out, w => ⟨(out, none), w, []⟩
  | sql.Expr.Thing TB ID :: rest, out, w =>
    let key : keys.Thing := ⟨ast.KV, ast.NS, ast.DB, TB, ID⟩
    let g := E.Get txn (E.Encode key) w
    let doc := item.New g.1.1 txn key
    let c := create E doc ast g.2
    match c.val.2 with
    | some e => ⟨([], some e), c.world, Event.Get txn (E.Encode key) g.1.2 :: c.trace⟩
    | none =>
      let r := forWhat E txn ast rest
        (match c.val.1 with
         | some ret => out ++ [ret]
         | none => out) c.world
      ⟨r.val, r.world, Event.Get txn (E.Encode key) g.1.2 :: c.trace ++ r.trace⟩
  | sql.Expr.Table TB :: rest, out, w =>
    let u := E.NewV4 w
    let key : keys.Thing :=
      ⟨ast.KV, ast.NS, ast.DB, TB, E.UUIDString (E.NewV5 u.1 ast.KV)⟩
    let g := E.Get txn (E.Encode key) u.2
    let doc := item.New g.1.1 txn key
    let c := create E doc ast g.2
    match c.val.2 with
    | some e =>
      ⟨([], some e), c.world,
        Event.NewV4 u.1 :: Event.Get txn (E.Encode key) g.1.2 :: c.trace⟩
    | none =>
      let r := forWhat E txn ast rest
        (match c.val.1 with
         | some ret => out ++ [ret]
         | none => out) c.world
      ⟨r.val, r.world,
        Event.NewV4 u.1 :: Event.Get txn (E.Encode key) g.1.2 :: c.trace ++ r.trace⟩
  | sql.Expr.Batch _ _ :: rest, out, w => forWhat E txn ast rest out w
  | sql.Expr.Other _ :: rest, out, w => forWhat E txn ast rest out w

/-- Lines 27-36: the transaction the statement runs on and the flag `local`, or
the error of `db.Txn`. -/
def txnScope {σ : Type} (E : Env σ) (txn : Option TX) (w : σ) :
    Ret σ (Except Err (TX × Bool)) :=
  match txn with
  | some t => ⟨Except.ok (t, false), w, []⟩
  | none =>
    let r := E.Txn true w
    match r.1 with
    | Except.error e => ⟨Except.error e, r.2, [Event.Txn true (some e) none]⟩
    | Except.ok t => ⟨Except.ok (t, true), r.2, [Event.Txn true none (some t)]⟩

/-- The deferred call of line 35, run when the function returns; it was
registered exactly when `local` was set. -/
def runDeferred {σ α : Type} (E : Env σ) (t : TX) (loc : Bool) (r : Ret σ α) : Ret σ α :=
  if loc then
    ⟨r.val, (E.Rollback t r.world).2, r.trace ++ [Event.Rollback t]⟩
  else r

/-- The function `executeCreateStatement` (lines 25-70): returns `(out, err)`;
a `nil` slice is the empty list. -/
def executeCreateStatement {σ : Type} (E : Env σ) (txn : Option TX)
    (ast : sql.CreateStatement) (w : σ) : Ret σ (List Val × Option Err) :=
  let s := txnScope E txn w
  match s.val with
  | Except.error e => ⟨([], some e), s.world, s.trace⟩
  | Except.ok (t, loc) =>
    let l := forWhat E t ast ast.What [] s.world
    match l.val.2 with
    | some _ => runDeferred E t loc ⟨l.val, l.world, s.trace ++ l.trace⟩
    | none =>
      if loc then
        let c := E.Commit t l.world
        runDeferred E t loc ⟨l.val, c.2, s.trace ++ l.trace ++ [Event.Commit t c.1]⟩
      else
        runDeferred E t loc ⟨l.val, l.world, s.trace ++ l.trace⟩

/-! ## `web/rpc.go`: the method `Let` -/

/-- A Go `interface{}` value as the type switch of `rpc.Let` tells it apart: a
`*fibre.RPCNull`, or a value of any other dynamic type. -/
inductive Value where
  | RPCNull
  | Other (v : String)
deriving DecidableEq, Repr

/-- An allocated Go `map[string]interface{}`: the entry of each key, if any. -/
abbrev Vars := String → Option Value

/-- The builtin `delete(m, key)` on an allocated map. -/
def Vars.delete (m : Vars) (key : String) : Vars :=
  fun x => if x = key then none else m x

/-- The assignment `m[key] = val` on an allocated map. -/
def Vars.set (m : Vars) (key : String) (val : Value) : Vars :=
  fun x => if x = key then some val else m x

/-- What a slot of a `fibre.Context` holds: a `map[string]interface{}` (nil, or
allocated), or a value of another type. -/
inductive Slot where
  | Vars (m : Option Vars)
  | Other (tag : Nat)

/-- The store of a `fibre.Context`: `c.Get(k)` is nil for a slot never set. -/
abbrev Context := String → Option Slot

/-- The method `c.Get(key)`. -/
def Context.Get (c : Context) (key : String) : Option Slot := c key

/-- The method `c.Set(key, val)`. -/
def Context.Set (c : Context) (key : String) (val : Slot) : Context :=
  fun x => if x = key then some val else c x

/-- The method `rpc.Let` (lines 74-87): returns `(vars, err)` and the context it
leaves.  `none` is a run-time panic: the type assertion on the `"vars"` slot
failing, or an assignment to an entry of a nil map.  The map is updated in place
in Go; here the updated map is the one returned and stored. -/
def rpc.Let (c : Context) (key : String) (val : Value) :
    Option ((Option Vars × Option Err) × Context) :=
  match val with
  | Value.RPCNull =>
    match c.Get "vars" with
    | some (Slot.Vars (some vars)) =>
      some ((some (vars.delete key), none),
        c.Set "vars" (Slot.Vars (some (vars.delete key))))
    | some (Slot.Vars none) => some ((none, none), c.Set "vars" (Slot.Vars none))
    | _ => none
  | Value.Other v =>
    match c.Get "vars" with
    | some (Slot.Vars (some vars)) =>
      some ((some (vars.set key (Value.Other v)), none),
        c.Set "vars" (Slot.Vars (some (vars.set key (Value.Other v)))))
    | _ => none

/-! ## Vocabulary of the statements -/

/-- The pipeline stages, named after the methods of `item.Doc`. -/
inductive Stage where
  | Merge | Allow | StoreIndex | StartThing | StorePatch | Yield
deriving DecidableEq, Repr

/-- The fixed order of the stages. -/
def stageOrder : List Stage :=
  [Stage.Merge, Stage.Allow, Stage.StoreIndex, Stage.StartThing, Stage.StorePatch, Stage.Yield]

/-- The stage an event is a call of. -/
def Event.stage : Event → Option Stage
  | Event.Merge _ _ _ => some Stage.Merge
  | Event.Allow _ _ _ => some Stage.Allow
  | Event.StoreIndex _ _ => some Stage.StoreIndex
  | Event.StartThing _ _ => some Stage.StartThing
  | Event.StorePatch _ _ => some Stage.StorePatch
  | Event.Yield _ _ _ _ => some Stage.Yield
  | _ => none

/-- The document a stage call was made on. -/
def Event.doc : Event → Option item.Doc
  | Event.Merge d _ _ => some d
  | Event.Allow d _ _ => some d
  | Event.StoreIndex d _ => some d
  | Event.StartThing d _ => some d
  | Event.StorePatch d _ => some d
  | Event.Yield d _ _ _ => some d
  | _ => none

/-- The error a stage call returned, if it returned one. -/
def Event.failure : Event → Option Err
  | Event.Merge _ _ e => e
  | Event.StoreIndex _ e => e
  | Event.StartThing _ e => e
  | Event.StorePatch _ e => e
  | _ => none

/-- Whether the event is a denial: `Allow` returning false. -/
def Event.denied : Event → Bool
  | Event.Allow _ _ ok => !ok
  | _ => false

/-- Whether the event is a call of `Commit`. -/
def Event.isCommit : Event → Bool
  | Event.Commit _ _ => true
  | _ => false

/-- Whether the event is a call of `Rollback`. -/
def Event.isRollback : Event → Bool
  | Event.Rollback _ => true
  | _ => false

/-- Number of `Commit` calls in a trace. -/
def commits (tr : List Event) : Nat := tr.countP Event.isCommit

/-- Number of `Rollback` calls in a trace. -/
def rollbacks (tr : List Event) : Nat := tr.countP Event.isRollback

/-- Whether a target is a single-record or a whole-table target. -/
def isTarget : sql.Expr → Bool
  | sql.Expr.Thing _ _ => true
  | sql.Expr.Table _ => true
  | _ => false

/-- Whether a target is a single-record target. -/
def isThing : sql.Expr → Bool
  | sql.Expr.Thing _ _ => true
  | _ => false

/-- Whether a target is a whole-table target. -/
def isTable : sql.Expr → Bool
  | sql.Expr.Table _ => true
  | _ => false

/-- The document the loop body builds for a target from world `w` (lines 41-43 for
a single record, lines 52-54 for a table), with the calls made to build it; no
document for a target of another variant. -/
def docOf {σ : Type} (E : Env σ) (txn : TX) (ast : sql.CreateStatement) :
    sql.Expr → σ → Option (Ret σ item.Doc)
  | sql.Expr.Thing TB ID, w =>
    let key : keys.Thing := ⟨ast.KV, ast.NS, ast.DB, TB, ID⟩
    let g := E.Get txn (E.Encode key) w
    some ⟨item.New g.1.1 txn key, g.2, [Event.Get txn (E.Encode key) g.1.2]⟩
  | sql.Expr.Table TB, w =>
    let u := E.NewV4 w
    let key : keys.Thing :=
      ⟨ast.KV, ast.NS, ast.DB, TB, E.UUIDString (E.NewV5 u.1 ast.KV)⟩
    let g := E.Get txn (E.Encode key) u.2
    some ⟨item.New g.1.1 txn key, g.2,
      [Event.NewV4 u.1, Event.Get txn (E.Encode key) g.1.2]⟩
  | _, _ => none

/-- The pipeline of one target, run from world `w`: its document is built and
taken through `create`. -/
def runTarget {σ : Type} (E : Env σ) (txn : TX) (ast : sql.CreateStatement)
    (x : sql.Expr) (w : σ) : Option (Ret σ (Option Val × Option Err)) :=
  match docOf E txn ast x w with
  | none => none
  | some d =>
    let c := create E d.val ast d.world
    some ⟨c.val, c.world, d.trace ++ c.trace⟩

/-- The outcomes `(out, err)` of one pipeline per single-record or whole-table
target, in input order, each run from the world the previous one left. -/
def pipelines {σ : Type} (E : Env σ) (txn : TX) (ast : sql.CreateStatement) :
    List sql.Expr → σ → List (Option Val × Option Err)
  | [], _ => []
  | x :: rest, w =>
    match runTarget E txn ast x w with
    | none => pipelines E txn ast rest w
    | some r => r.val :: pipelines E txn ast rest r.world

/-- The key of the document a pipeline is started on: every run of `create` begins
with exactly one call of `Merge`. -/
def Event.runKey : Event → Option keys.Thing
  | Event.Merge d _ _ => some d.key
  | _ => none

/-- The uuid a call of `uuid.NewV4` returned. -/
def Event.uuid : Event → Option UUID
  | Event.NewV4 u => some u
  | _ => none

/-- The encoded key a call of `Get` was made on. -/
def Event.getKey : Event → Option Bytes
  | Event.Get _ k _ => some k
  | _ => none

/-- The addresses on which pipelines ran, in order. -/
def runsOn (tr : List Event) : List keys.Thing := tr.filterMap Event.runKey

/-- The uuids generated, in order. -/
def generated (tr : List Event) : List UUID := tr.filterMap Event.uuid

/-- The encoded keys read through the transaction, in order. -/
def getKeys (tr : List Event) : List Bytes := tr.filterMap Event.getKey

/-- The addresses the targets stand for, in input order: a single-record target
stands for its own table and id, a whole-table target for its table and one id
made from the next generated uuid of `us`, a target of another variant for no
address. -/
def addresses {σ : Type} (E : Env σ) (ast : sql.CreateStatement) :
    List sql.Expr → List UUID → List keys.Thing
  | [], _ => []
  | sql.Expr.Thing TB ID :: rest, us =>
    ⟨ast.KV, ast.NS, ast.DB, TB, ID⟩ :: addresses E ast rest us
  | sql.Expr.Table TB :: rest, u :: us =>
    ⟨ast.KV, ast.NS, ast.DB, TB, E.UUIDString (E.NewV5 u ast.KV)⟩ ::
      addresses E ast rest us
  | sql.Expr.Table _ :: _, [] => []
  | sql.Expr.Batch _ _ :: rest, us => addresses E ast rest us
  | sql.Expr.Other _ :: rest, us => addresses E ast rest us

/-- The same collaborators with a `Get` that returns the same value and leaves
the same world, but never reports an error. -/
def Env.quietGet {σ : Type} (E : Env σ) : Env σ :=
  { E with Get := fun t k w => (((E.Get t k w).1.1, none), (E.Get t k w).2) }

/-! ## Sample collaborators, used to evaluate the functions -/

/-- A world for the samples: the number of uuids generated so far. -/
abbrev DemoWorld := Nat

/-- Sample collaborators: `db.Txn` opens transaction 7; `Get` finds nothing;
record `"b"` is denied, `Merge` fails on record `"m"` and `StoreIndex` on record
`"x"`; a document yields its record id. -/
def demoEnv : Env DemoWorld where
  Txn := fun _ w => (Except.ok 7, w)
  Get := fun _ _ w => ((none, none), w)
  Commit := fun _ w => (none, w)
  Rollback := fun _ w => (none, w)
  Encode := fun k => [k.TB.length, k.ID.length]
  NewV4 := fun w => (w, w + 1)
  NewV5 := fun u _ => u
  UUIDString := fun u => toString u
  Merge := fun d _ w => (if d.key.ID = "m" then some "merge failed" else none, w)
  Allow := fun d _ w => (d.key.ID != "b", w)
  StoreIndex := fun d w => (if d.key.ID = "x" then some "index failed" else none, w)
  StartThing := fun _ w => (none, w)
  StorePatch := fun _ w => (none, w)
  Yield := fun d _ _ w => (some d.key.ID, w)
  AFTER := 2

/-- Sample collaborators whose `db.Txn` fails. -/
def demoNoTxn : Env DemoWorld :=
  { demoEnv with Txn := fun _ w => (Except.error "txn failed", w) }

/-- Sample collaborators whose `Get` and `Commit` report errors. -/
def demoFaulty : Env DemoWorld :=
  { demoEnv with
    Get := fun _ _ w => ((none, some "get failed"), w)
    Commit := fun _ w => (some "commit failed", w) }

/-- A sample context whose `"vars"` slot holds a map with the one entry
`"a"`. -/
def demoContext : Context :=
  fun k =>
    if k = "vars" then
      some (Slot.Vars (some (fun x => if x = "a" then some (Value.Other "1") else none)))
    else none

/-- A sample statement on the given targets. -/
def demoAst (what : List sql.Expr) : sql.CreateStatement :=
  ⟨"kv", "ns", "db", what, "data", 2⟩

/-! ## The shape of a pipeline run -/

/-- The six ways a run of `create` can go. -/
theorem create_shape {σ : Type} (E : Env σ) (doc : item.Doc) (ast : sql.CreateStatement)
    (w : σ) :
    (∃ e, (create E doc ast w).val = (none, some e) ∧
      (create E doc ast w).trace = [Event.Merge doc ast.Data (some e)]) ∨
    ((create E doc ast w).val = (none, none) ∧
      (create E doc ast w).trace =
        [Event.Merge doc ast.Data none, Event.Allow doc "CREATE" false]) ∨
    (∃ e, (create E doc ast w).val = (none, some e) ∧
      (create E doc ast w).trace =
        [Event.Merge doc ast.Data none, Event.Allow doc "CREATE" true,
         Event.StoreIndex doc (some e)]) ∨
    (∃ e, (create E doc ast w).val = (none, some e) ∧
      (create E doc ast w).trace =
        [Event.Merge doc ast.Data none, Event.Allow doc "CREATE" true,
         Event.StoreIndex doc none, Event.StartThing doc (some e)]) ∨
    (∃ e, (create E doc ast w).val = (none, some e) ∧
      (create E doc ast w).trace =
        [Event.Merge doc ast.Data none, Event.Allow doc "CREATE" true,
         Event.StoreIndex doc none, Event.StartThing doc none,
         Event.StorePatch doc (some e)]) ∨
    (∃ y, (create E doc ast w).val = (y, none) ∧
      (create E doc ast w).trace =
        [Event.Merge doc ast.Data none, Event.Allow doc "CREATE" true,
         Event.StoreIndex doc none, Event.StartThing doc none,
         Event.StorePatch doc none, Event.Yield doc ast.Echo E.AFTER y]) := by
  unfold create
  simp only
  split
  · exact Or.inl ⟨_, rfl, rfl⟩
  · split
    · rename_i h
      simp only [Bool.not_eq_true_eq_eq_false, Bool.not_eq_true] at h
      rw [h]
      exact Or.inr (Or.inl ⟨rfl, rfl⟩)
    · rename_i h
      simp only [Bool.not_eq_true_eq_eq_false, Bool.not_eq_true, Bool.not_eq_false] at h
      rw [h]
      split
      · exact Or.inr (Or.inr (Or.inl ⟨_, rfl, rfl⟩))
      · split
        · exact Or.inr (Or.inr (Or.inr (Or.inl ⟨_, rfl, rfl⟩)))
        · split
          · exact Or.inr (Or.inr (Or.inr (Or.inr (Or.inl ⟨_, rfl, rfl⟩))))
          · exact Or.inr (Or.inr (Or.inr (Or.inr (Or.inr ⟨_, rfl, rfl⟩))))

/-- C5: a run of `create` makes only stage calls, all on its own document; the
stages called are an initial segment of Merge, Allow, StoreIndex, StartThing,
StorePatch, Yield, so each is called at most once; every call but the last one
returned without error and without denial, and when no call failed or denied all
six stages are called, so the run stops exactly at the first failure or denial;
the error returned is that of the last call; StorePatch is called only after
StoreIndex and StartThing returned no error, and Yield only after StorePatch
returned no error. -/
theorem create_stages_in_order {σ : Type} (E : Env σ) (doc : item.Doc)
    (ast : sql.CreateStatement) (w : σ) :
    (create E doc ast w).trace.filterMap Event.stage <+: stageOrder ∧
    ((create E doc ast w).trace.filterMap Event.stage).Nodup ∧
    (∀ ev ∈ (create E doc ast w).trace, ev.stage ≠ none ∧ ev.doc = some doc) ∧
    (∀ ev ∈ (create E doc ast w).trace.dropLast,
      ev.failure = none ∧ ev.denied = false) ∧
    ((∀ ev ∈ (create E doc ast w).trace, ev.failure = none ∧ ev.denied = false) →
      (create E doc ast w).trace.filterMap Event.stage = stageOrder) ∧
    (create E doc ast w).trace.getLast?.bind Event.failure = (create E doc ast w).val.2 ∧
    ((∃ e, Event.StorePatch doc e ∈ (create E doc ast w).trace) →
      Event.StoreIndex doc none ∈ (create E doc ast w).trace ∧
      Event.StartThing doc none ∈ (create E doc ast w).trace) ∧
    ((∃ echo after y, Event.Yield doc echo after y ∈ (create E doc ast w).trace) →
      Event.StorePatch doc none ∈ (create E doc ast w).trace) := by
  rcases create_shape E doc ast w with ⟨e, hv, ht⟩ | ⟨hv, ht⟩ | ⟨e, hv, ht⟩ | ⟨e, hv, ht⟩ |
    ⟨e, hv, ht⟩ | ⟨y, hv, ht⟩ <;>
  · rw [ht, hv]
    refine ⟨?_, ?_, ?_, ?_, ?_, ?_, ?_, ?_⟩
    · simp only [List.filterMap_cons, List.filterMap_nil, Event.stage]
      decide
    · simp only [List.filterMap_cons, List.filterMap_nil, Event.stage]
      decide
    all_goals simp [Event.stage, Event.doc, Event.failure, Event.denied, stageOrder]

/-! ## The loop, one target at a time -/

/-- The loop on a non-empty list: the pipeline of the first target, then, unless
it failed, the loop on the others. -/
theorem forWhat_cons {σ : Type} (E : Env σ) (t : TX) (ast : sql.CreateStatement)
    (x : sql.Expr) (rest : List sql.Expr) (out : List Val) (w : σ) :
    forWhat E t ast (x :: rest) out w =
      match runTarget E t ast x w with
      | none => forWhat E t ast rest out w
      | some r =>
        match r.val.2 with
        | some e => ⟨([], some e), r.world, r.trace⟩
        | none =>
          ⟨(forWhat E t ast rest
              (match r.val.1 with
               | some v => out ++ [v]
               | none => out) r.world).val,
           (forWhat E t ast rest
              (match r.val.1 with
               | some v => out ++ [v]
               | none => out) r.world).world,
           r.trace ++ (forWhat E t ast rest
              (match r.val.1 with
               | some v => out ++ [v]
               | none => out) r.world).trace⟩ := by
  cases x with
  | Thing TB ID =>
    simp only [forWhat, runTarget, docOf]
    split <;> rename_i h <;> simp [h]
  | Table TB =>
    simp only [forWhat, runTarget, docOf]
    split <;> rename_i h <;> simp [h]
  | Batch TB IDs => simp [forWhat, runTarget, docOf]
  | Other tag => simp [forWhat, runTarget, docOf]

/-- The loop on `pre ++ post` when the loop on `pre` ends without error: the loop
on `post` goes on from there. -/
theorem forWhat_append_ok {σ : Type} (E : Env σ) (t : TX) (ast : sql.CreateStatement)
    (pre post : List sql.Expr) (out : List Val) (w : σ)
    (h : (forWhat E t ast pre out w).val.2 = none) :
    forWhat E t ast (pre ++ post) out w =
      ⟨(forWhat E t ast post (forWhat E t ast pre out w).val.1
          (forWhat E t ast pre out w).world).val,
       (forWhat E t ast post (forWhat E t ast pre out w).val.1
          (forWhat E t ast pre out w).world).world,
       (forWhat E t ast pre out w).trace ++
         (forWhat E t ast post (forWhat E t ast pre out w).val.1
          (forWhat E t ast pre out w).world).trace⟩ := by
  induction pre generalizing out w with
  | nil => simp [forWhat]
  | cons x rest ih =>
    rw [List.cons_append, forWhat_cons]
    rw [forWhat_cons] at h
    rw [forWhat_cons E t ast x rest]
    cases hr : runTarget E t ast x w with
    | none =>
      simp only [hr] at h ⊢
      exact ih _ _ h
    | some r =>
      simp only [hr] at h ⊢
      cases he : r.val.2 with
      | some e1 => simp [he] at h
      | none =>
        simp only [he] at h ⊢
        rw [ih _ _ h]
        simp

/-- A pipeline calls neither `Commit` nor `Rollback`. -/
theorem create_no_end {σ : Type} (E : Env σ) (doc : item.Doc) (ast : sql.CreateStatement)
    (w : σ) :
    ∀ ev ∈ (create E doc ast w).trace, ev.isCommit = false ∧ ev.isRollback = false := by
  rcases create_shape E doc ast w with ⟨e, _, ht⟩ | ⟨_, ht⟩ | ⟨e, _, ht⟩ | ⟨e, _, ht⟩ |
    ⟨e, _, ht⟩ | ⟨y, _, ht⟩ <;>
  · rw [ht]
    simp [Event.isCommit, Event.isRollback]

/-- The pipeline of a target calls neither `Commit` nor `Rollback`. -/
theorem runTarget_no_end {σ : Type} (E : Env σ) (t : TX) (ast : sql.CreateStatement)
    (x : sql.Expr) (w : σ) (r : Ret σ (Option Val × Option Err))
    (h : runTarget E t ast x w = some r) :
    ∀ ev ∈ r.trace, ev.isCommit = false ∧ ev.isRollback = false := by
  cases x with
  | Thing TB ID =>
    simp only [runTarget, docOf, Option.some.injEq] at h
    subst h
    intro ev hev
    simp only [List.mem_append, List.mem_singleton, List.singleton_append,
      List.mem_cons] at hev
    rcases hev with rfl | hev
    · simp [Event.isCommit, Event.isRollback]
    · exact create_no_end _ _ _ _ ev hev
  | Table TB =>
    simp only [runTarget, docOf, Option.some.injEq] at h
    subst h
    intro ev hev
    simp only [List.mem_append, List.cons_append, List.nil_append,
      List.mem_cons] at hev
    rcases hev with rfl | rfl | hev
    · simp [Event.isCommit, Event.isRollback]
    · simp [Event.isCommit, Event.isRollback]
    · exact create_no_end _ _ _ _ ev hev
  | Batch TB IDs => simp [runTarget, docOf] at h
  | Other tag => simp [runTarget, docOf] at h

/-- The loop calls neither `Commit` nor `Rollback`. -/
theorem forWhat_no_end {σ : Type} (E : Env σ) (t : TX) (ast : sql.CreateStatement)
    (l : List sql.Expr) (out : List Val) (w : σ) :
    ∀ ev ∈ (forWhat E t ast l out w).trace,
      ev.isCommit = false ∧ ev.isRollback = false := by
  induction l generalizing out w with
  | nil => simp [forWhat]
  | cons x rest ih =>
    rw [forWhat_cons]
    cases hr : runTarget E t ast x w with
    | none =>
      simp only [hr]
      exact ih _ _
    | some r =>
      simp only [hr]
      cases he : r.val.2 with
      | some e1 =>
        simp only [he]
        exact runTarget_no_end E t ast x w r hr
      | none =>
        simp only [he]
        intro ev hev
        rcases List.mem_append.mp hev with h1 | h1
        · exact runTarget_no_end E t ast x w r hr ev h1
        · exact ih _ _ ev h1

/-- The loop calls `Commit` and `Rollback` zero times. -/
theorem forWhat_counts {σ : Type} (E : Env σ) (t : TX) (ast : sql.CreateStatement)
    (l : List sql.Expr) (out : List Val) (w : σ) :
    commits (forWhat E t ast l out w).trace = 0 ∧
    rollbacks (forWhat E t ast l out w).trace = 0 := by
  constructor
  · unfold commits
    rw [List.countP_eq_zero]
    intro ev hev
    simp [(forWhat_no_end E t ast l out w ev hev).1]
  · unfold rollbacks
    rw [List.countP_eq_zero]
    intro ev hev
    simp [(forWhat_no_end E t ast l out w ev hev).2]

/-- The loop up to and including the first target whose pipeline fails. -/
theorem forWhat_first_error {σ : Type} (E : Env σ) (t : TX) (ast : sql.CreateStatement)
    (pre post : List sql.Expr) (x : sql.Expr) (out : List Val) (w : σ)
    (r : Ret σ (Option Val × Option Err)) (e : Err)
    (hpre : (forWhat E t ast pre out w).val.2 = none)
    (hx : runTarget E t ast x (forWhat E t ast pre out w).world = some r)
    (he : r.val.2 = some e) :
    forWhat E t ast (pre ++ x :: post) out w =
      ⟨([], some e), r.world, (forWhat E t ast pre out w).trace ++ r.trace⟩ := by
  rw [forWhat_append_ok E t ast pre (x :: post) out w hpre, forWhat_cons]
  simp only [hx, he]

/-- The last call of a target's pipeline is a stage call, and the error the
pipeline returns is the error of that call. -/
theorem runTarget_last {σ : Type} (E : Env σ) (t : TX) (ast : sql.CreateStatement)
    (x : sql.Expr) (w : σ) (r : Ret σ (Option Val × Option Err))
    (h : runTarget E t ast x w = some r) :
    r.trace.getLast?.bind Event.failure = r.val.2 ∧
    r.trace.getLast?.bind Event.stage ≠ none := by
  have key : ∀ (d : Ret σ item.Doc),
      ((d.trace ++ (create E d.val ast d.world).trace).getLast?.bind Event.failure =
        (create E d.val ast d.world).val.2) ∧
      ((d.trace ++ (create E d.val ast d.world).trace).getLast?.bind Event.stage ≠ none) := by
    intro d
    rcases create_shape E d.val ast d.world with ⟨e, hv, ht⟩ | ⟨hv, ht⟩ | ⟨e, hv, ht⟩ |
      ⟨e, hv, ht⟩ | ⟨e, hv, ht⟩ | ⟨y, hv, ht⟩ <;>
    · rw [ht, hv]
      simp [List.getLast?_append, Event.failure, Event.stage]
  unfold runTarget at h
  cases hd : docOf E t ast x w with
  | none => simp [hd] at h
  | some d =>
    simp only [hd, Option.some.injEq] at h
    subst h
    exact key d

/-- A target has a pipeline exactly when it is a single record or a table. -/
theorem runTarget_isSome {σ : Type} (E : Env σ) (t : TX) (ast : sql.CreateStatement)
    (x : sql.Expr) (w : σ) : (runTarget E t ast x w).isSome = isTarget x := by
  cases x <;> simp [runTarget, docOf, isTarget]

/-- The number of pipelines is the number of single-record and table targets. -/
theorem pipelines_length {σ : Type} (E : Env σ) (t : TX) (ast : sql.CreateStatement)
    (l : List sql.Expr) (w : σ) :
    (pipelines E t ast l w).length = l.countP isTarget := by
  induction l generalizing w with
  | nil => simp [pipelines]
  | cons x rest ih =>
    have hx := runTarget_isSome E t ast x w
    simp only [pipelines]
    cases hr : runTarget E t ast x w with
    | none =>
      rw [hr] at hx
      have hx1 : isTarget x = false := by simpa using hx.symm
      simp [List.countP_cons, hx1, ih]
    | some r =>
      rw [hr] at hx
      have hx1 : isTarget x = true := by simpa using hx.symm
      simp [List.countP_cons, hx1, ih]

/-- When every pipeline succeeds the loop returns the results appended so far
followed by the yields that are present, in order. -/
theorem forWhat_pipelines {σ : Type} (E : Env σ) (t : TX) (ast : sql.CreateStatement)
    (l : List sql.Expr) (out : List Val) (w : σ)
    (h : ∀ p ∈ pipelines E t ast l w, p.2 = none) :
    (forWhat E t ast l out w).val =
      (out ++ (pipelines E t ast l w).filterMap Prod.fst, none) := by
  induction l generalizing out w with
  | nil => simp [forWhat, pipelines]
  | cons x rest ih =>
    rw [forWhat_cons]
    simp only [pipelines] at h ⊢
    cases hr : runTarget E t ast x w with
    | none =>
      simp only [hr] at h ⊢
      exact ih _ _ h
    | some r =>
      simp only [hr, List.mem_cons, forall_eq_or_imp] at h ⊢
      simp only [h.1]
      rw [ih _ _ h.2]
      cases hy : r.val.1 with
      | none => simp [hy]
      | some v => simp [hy]

/-- The pipeline `create` reads only the `Data` and `Echo` fields. -/
theorem create_congr {σ : Type} (E : Env σ) (doc : item.Doc)
    (a b : sql.CreateStatement) (w : σ) (hD : a.Data = b.Data) (hE : a.Echo = b.Echo) :
    create E doc a w = create E doc b w := by
  unfold create
  simp only [hD, hE]

/-- The loop does not read the `What` field of the statement it is given. -/
theorem forWhat_congr {σ : Type} (E : Env σ) (t : TX) (a : sql.CreateStatement)
    (what : List sql.Expr) (l : List sql.Expr) (out : List Val) (w : σ) :
    forWhat E t { a with What := what } l out w = forWhat E t a l out w := by
  induction l generalizing out w with
  | nil => simp [forWhat]
  | cons x rest ih =>
    cases x with
    | Thing TB ID =>
      simp only [forWhat, ih, create_congr E _ { a with What := what } a _ rfl rfl]
    | Table TB =>
      simp only [forWhat, ih, create_congr E _ { a with What := what } a _ rfl rfl]
    | Batch TB IDs => simp only [forWhat, ih]
    | Other tag => simp only [forWhat, ih]

/-- Dropping the targets that are neither a single record nor a table changes
nothing in the loop. -/
theorem forWhat_filter {σ : Type} (E : Env σ) (t : TX) (ast : sql.CreateStatement)
    (l : List sql.Expr) (out : List Val) (w : σ) :
    forWhat E t ast (l.filter isTarget) out w = forWhat E t ast l out w := by
  induction l generalizing out w with
  | nil => simp
  | cons x rest ih =>
    cases x with
    | Thing TB ID =>
      simp only [List.filter, isTarget]
      rw [forWhat_cons, forWhat_cons E t ast _ rest]
      simp only [ih]
    | Table TB =>
      simp only [List.filter, isTarget]
      rw [forWhat_cons, forWhat_cons E t ast _ rest]
      simp only [ih]
    | Batch TB IDs => simp only [List.filter, isTarget, forWhat, ih]
    | Other tag => simp only [List.filter, isTarget, forWhat, ih]

/-- Addresses, uuids and keys read over a concatenation of traces. -/
theorem runsOn_append (a b : List Event) : runsOn (a ++ b) = runsOn a ++ runsOn b := by
  simp [runsOn]

/-- The uuids generated over a concatenation of traces. -/
theorem generated_append (a b : List Event) :
    generated (a ++ b) = generated a ++ generated b := by
  simp [generated]

/-- The keys read over a concatenation of traces. -/
theorem getKeys_append (a b : List Event) : getKeys (a ++ b) = getKeys a ++ getKeys b := by
  simp [getKeys]

/-- A run of `create` is one pipeline run, on its document; it generates no uuid
and reads no key. -/
theorem create_proj {σ : Type} (E : Env σ) (doc : item.Doc) (ast : sql.CreateStatement)
    (w : σ) :
    runsOn (create E doc ast w).trace = [doc.key] ∧
    generated (create E doc ast w).trace = [] ∧
    getKeys (create E doc ast w).trace = [] := by
  rcases create_shape E doc ast w with ⟨e, _, ht⟩ | ⟨_, ht⟩ | ⟨e, _, ht⟩ | ⟨e, _, ht⟩ |
    ⟨e, _, ht⟩ | ⟨y, _, ht⟩ <;>
  · rw [ht]
    simp [runsOn, generated, getKeys, Event.runKey, Event.uuid, Event.getKey]

/-- A run of `create` is one pipeline run, on the key of its document. -/
theorem create_runsOn {σ : Type} (E : Env σ) (doc : item.Doc) (ast : sql.CreateStatement)
    (w : σ) : runsOn (create E doc ast w).trace = [doc.key] :=
  (create_proj E doc ast w).1

/-- A run of `create` generates no uuid. -/
theorem create_generated {σ : Type} (E : Env σ) (doc : item.Doc)
    (ast : sql.CreateStatement) (w : σ) : generated (create E doc ast w).trace = [] :=
  (create_proj E doc ast w).2.1

/-- A run of `create` reads no key through the transaction. -/
theorem create_getKeys {σ : Type} (E : Env σ) (doc : item.Doc)
    (ast : sql.CreateStatement) (w : σ) : getKeys (create E doc ast w).trace = [] :=
  (create_proj E doc ast w).2.2

/-- The pipeline of a target runs on the address the target stands for, reads
that key once, and generates one uuid exactly when the target is a table. -/
theorem runTarget_proj {σ : Type} (E : Env σ) (t : TX) (ast : sql.CreateStatement)
    (x : sql.Expr) (w : σ) (r : Ret σ (Option Val × Option Err))
    (hr : runTarget E t ast x w = some r) :
    (∀ l g, addresses E ast (x :: l) (generated r.trace ++ g) =
      runsOn r.trace ++ addresses E ast l g) ∧
    getKeys r.trace = (runsOn r.trace).map E.Encode ∧
    (generated r.trace).length = (if isTable x then 1 else 0) ∧
    (runsOn r.trace).length = 1 ∧
    (if isThing x then 1 else 0) + (if isTable x then 1 else 0) = 1 := by
  cases x with
  | Thing TB ID =>
    simp only [runTarget, docOf, Option.some.injEq] at hr
    subst hr
    simp only [runsOn_append, generated_append, getKeys_append, create_runsOn,
      create_generated, create_getKeys]
    simp [addresses, item.New, isTable, isThing, runsOn, generated, getKeys,
      Event.runKey, Event.uuid, Event.getKey]
  | Table TB =>
    simp only [runTarget, docOf, Option.some.injEq] at hr
    subst hr
    simp only [runsOn_append, generated_append, getKeys_append, create_runsOn,
      create_generated, create_getKeys]
    simp [addresses, item.New, isTable, isThing, runsOn, generated, getKeys,
      Event.runKey, Event.uuid, Event.getKey]
  | Batch TB IDs => simp [runTarget, docOf] at hr
  | Other tag => simp [runTarget, docOf] at hr

/-- A target without pipeline stands for no address. -/
theorem runTarget_none {σ : Type} (E : Env σ) (t : TX) (ast : sql.CreateStatement)
    (x : sql.Expr) (w : σ) (hr : runTarget E t ast x w = none) :
    (∀ l g, addresses E ast (x :: l) g = addresses E ast l g) ∧
    isThing x = false ∧ isTable x = false := by
  cases x with
  | Thing TB ID => simp [runTarget, docOf] at hr
  | Table TB => simp [runTarget, docOf] at hr
  | Batch TB IDs => simp [addresses, isThing, isTable]
  | Other tag => simp [addresses, isThing, isTable]

/-- The pipeline runs of the loop: they are on the addresses of an initial segment
of the targets, each read once through `Get`; when the loop ends without error
they are on the addresses of all the targets. -/
theorem forWhat_runs {σ : Type} (E : Env σ) (t : TX) (ast : sql.CreateStatement)
    (l : List sql.Expr) (out : List Val) (w : σ) :
    (∃ k, runsOn (forWhat E t ast l out w).trace =
      addresses E ast (l.take k) (generated (forWhat E t ast l out w).trace)) ∧
    getKeys (forWhat E t ast l out w).trace =
      (runsOn (forWhat E t ast l out w).trace).map E.Encode ∧
    ((forWhat E t ast l out w).val.2 = none →
      runsOn (forWhat E t ast l out w).trace =
        addresses E ast l (generated (forWhat E t ast l out w).trace) ∧
      (generated (forWhat E t ast l out w).trace).length = l.countP isTable ∧
      (runsOn (forWhat E t ast l out w).trace).length =
        l.countP isThing + l.countP isTable) := by
  induction l generalizing out w with
  | nil => simp [forWhat, runsOn, generated, getKeys, addresses]
  | cons x rest ih =>
    rw [forWhat_cons]
    cases hr : runTarget E t ast x w with
    | none =>
      obtain ⟨n1, n2, n3⟩ := runTarget_none E t ast x w hr
      obtain ⟨⟨k, i1⟩, i2, i3⟩ := ih out w
      simp only []
      refine ⟨⟨k + 1, ?_⟩, i2, ?_⟩
      · rw [List.take_succ_cons, n1, i1]
      · intro h
        obtain ⟨j1, j2, j3⟩ := i3 h
        refine ⟨?_, ?_, ?_⟩
        · rw [n1, j1]
        · simp [List.countP_cons, n3, j2]
        · simp [List.countP_cons, n2, n3, j3]
    | some r =>
      obtain ⟨p1, p2, p3, p4, p5⟩ := runTarget_proj E t ast x w r hr
      simp only []
      cases he : r.val.2 with
      | some e1 =>
        simp only []
        refine ⟨⟨1, ?_⟩, p2, ?_⟩
        · have := p1 [] []
          simp only [List.append_nil, addresses] at this
          rw [List.take_succ_cons, List.take_zero, this]
        · intro h
          simp at h
      | none =>
        simp only []
        obtain ⟨⟨k, i1⟩, i2, i3⟩ := ih
          (match r.val.1 with
            | some v => out ++ [v]
            | none => out) r.world
        refine ⟨⟨k + 1, ?_⟩, ?_, ?_⟩
        · rw [List.take_succ_cons, runsOn_append, generated_append, p1, i1]
        · rw [getKeys_append, runsOn_append, List.map_append, p2, i2]
        · intro h
          obtain ⟨j1, j2, j3⟩ := i3 h
          refine ⟨?_, ?_, ?_⟩
          · rw [runsOn_append, generated_append, p1, ← j1]
          · rw [generated_append, List.length_append, p3, j2, List.countP_cons]
            omega
          · rw [runsOn_append, List.length_append, p4, j3, List.countP_cons,
              List.countP_cons]
            omega

/-! ## The statement executor -/

/-- The executor once the transaction is known: the loop, then `Commit` if the
loop ended without error and the transaction is local, then the deferred call. -/
theorem execute_of_scope {σ : Type} (E : Env σ) (txn : Option TX)
    (ast : sql.CreateStatement) (w : σ) (t : TX) (loc : Bool)
    (hS : (txnScope E txn w).val = Except.ok (t, loc)) :
    executeCreateStatement E txn ast w =
      match (forWhat E t ast ast.What [] (txnScope E txn w).world).val.2 with
      | some _ =>
        runDeferred E t loc
          ⟨(forWhat E t ast ast.What [] (txnScope E txn w).world).val,
           (forWhat E t ast ast.What [] (txnScope E txn w).world).world,
           (txnScope E txn w).trace ++
             (forWhat E t ast ast.What [] (txnScope E txn w).world).trace⟩
      | none =>
        if loc then
          runDeferred E t loc
            ⟨(forWhat E t ast ast.What [] (txnScope E txn w).world).val,
             (E.Commit t (forWhat E t ast ast.What [] (txnScope E txn w).world).world).2,
             (txnScope E txn w).trace ++
               (forWhat E t ast ast.What [] (txnScope E txn w).world).trace ++
               [Event.Commit t
                 (E.Commit t
                   (forWhat E t ast ast.What [] (txnScope E txn w).world).world).1]⟩
        else
          runDeferred E t loc
            ⟨(forWhat E t ast ast.What [] (txnScope E txn w).world).val,
             (forWhat E t ast ast.What [] (txnScope E txn w).world).world,
             (txnScope E txn w).trace ++
               (forWhat E t ast ast.What [] (txnScope E txn w).world).trace⟩ := by
  unfold executeCreateStatement
  simp only [hS]

/-- A borrowed transaction is its own scope. -/
theorem txnScope_some {σ : Type} (E : Env σ) (t : TX) (w : σ) :
    txnScope E (some t) w = ⟨Except.ok (t, false), w, []⟩ := rfl

/-- The scope of a call without transaction, when `db.Txn` succeeds. -/
theorem txnScope_none_ok {σ : Type} (E : Env σ) (w w0 : σ) (t : TX)
    (h : E.Txn true w = (Except.ok t, w0)) :
    txnScope E none w = ⟨Except.ok (t, true), w0, [Event.Txn true none (some t)]⟩ := by
  simp [txnScope, h]

/-- The scope of a call without transaction, when `db.Txn` fails. -/
theorem txnScope_none_error {σ : Type} (E : Env σ) (w w0 : σ) (e : Err)
    (h : E.Txn true w = (Except.error e, w0)) :
    txnScope E none w = ⟨Except.error e, w0, [Event.Txn true (some e) none]⟩ := by
  simp [txnScope, h]

/-- Opening a transaction is neither a `Commit` nor a `Rollback`. -/
theorem txnScope_counts {σ : Type} (E : Env σ) (txn : Option TX) (w : σ) :
    commits (txnScope E txn w).trace = 0 ∧ rollbacks (txnScope E txn w).trace = 0 := by
  cases txn with
  | some t => simp [txnScope, commits, rollbacks]
  | none =>
    simp only [txnScope]
    split <;> simp [commits, rollbacks, Event.isCommit, Event.isRollback]

/-- Counting `Commit` calls over a concatenation. -/
theorem commits_append (a b : List Event) : commits (a ++ b) = commits a + commits b := by
  simp [commits, List.countP_append]

/-- Counting `Rollback` calls over a concatenation. -/
theorem rollbacks_append (a b : List Event) :
    rollbacks (a ++ b) = rollbacks a + rollbacks b := by
  simp [rollbacks, List.countP_append]

/-- The executor on an owned transaction when the loop ends without error: the
results of the loop are returned, and `Commit` then `Rollback` are called. -/
theorem execute_owned_ok {σ : Type} (E : Env σ) (ast : sql.CreateStatement)
    (w w0 : σ) (t : TX) (h : E.Txn true w = (Except.ok t, w0))
    (hl : (forWhat E t ast ast.What [] w0).val.2 = none) :
    (executeCreateStatement E none ast w).val = (forWhat E t ast ast.What [] w0).val ∧
    (executeCreateStatement E none ast w).trace =
      [Event.Txn true none (some t)] ++ (forWhat E t ast ast.What [] w0).trace ++
        [Event.Commit t (E.Commit t (forWhat E t ast ast.What [] w0).world).1] ++
        [Event.Rollback t] ∧
    commits (executeCreateStatement E none ast w).trace = 1 := by
  have hs := txnScope_none_ok E w w0 t h
  have hc := forWhat_counts E t ast ast.What [] w0
  rw [execute_of_scope E none ast w t true (by rw [hs])]
  simp only [hs, runDeferred, if_true, hl]
  refine ⟨trivial, trivial, ?_⟩
  simp only [commits_append, hc.1]
  rfl

/-- An error returned by the loop is the error of a stage call of its trace. -/
theorem forWhat_error_in_trace {σ : Type} (E : Env σ) (t : TX) (ast : sql.CreateStatement)
    (l : List sql.Expr) (out : List Val) (w : σ) (e : Err)
    (h : (forWhat E t ast l out w).val.2 = some e) :
    ∃ ev ∈ (forWhat E t ast l out w).trace, ev.failure = some e := by
  induction l generalizing out w with
  | nil => simp [forWhat] at h
  | cons x rest ih =>
    rw [forWhat_cons] at h ⊢
    cases hr : runTarget E t ast x w with
    | none =>
      simp only [hr] at h ⊢
      exact ih _ _ h
    | some r =>
      simp only [hr] at h ⊢
      cases he : r.val.2 with
      | some e1 =>
        simp only [he] at h ⊢
        have hl := (runTarget_last E t ast x w r hr).1
        rw [he] at hl
        cases hg : r.trace.getLast? with
        | none => simp [hg] at hl
        | some ev =>
          simp only [hg, Option.some_bind] at hl
          refine ⟨ev, List.mem_of_getLast?_eq_some hg, ?_⟩
          rw [hl]
          simpa using h
      | none =>
        simp only [he] at h ⊢
        obtain ⟨ev, hev, hf⟩ := ih _ _ h
        exact ⟨ev, List.mem_append_right _ hev, hf⟩

/-- Opening the transaction runs no pipeline, generates no uuid and reads no key. -/
theorem txnScope_proj {σ : Type} (E : Env σ) (txn : Option TX) (w : σ) :
    runsOn (txnScope E txn w).trace = [] ∧ generated (txnScope E txn w).trace = [] ∧
    getKeys (txnScope E txn w).trace = [] := by
  cases txn with
  | some t => simp [txnScope, runsOn, generated, getKeys]
  | none =>
    simp only [txnScope]
    split <;>
      simp [runsOn, generated, getKeys, Event.runKey, Event.uuid, Event.getKey]

/-- The calls of the executor once the transaction is known: those of opening it,
those of the loop, and then only `Commit` and `Rollback` calls; it returns what the
loop returns. -/
theorem execute_trace {σ : Type} (E : Env σ) (txn : Option TX)
    (ast : sql.CreateStatement) (w : σ) (t : TX) (loc : Bool)
    (hS : (txnScope E txn w).val = Except.ok (t, loc)) :
    (executeCreateStatement E txn ast w).val =
      (forWhat E t ast ast.What [] (txnScope E txn w).world).val ∧
    ∃ post, (executeCreateStatement E txn ast w).trace =
      (txnScope E txn w).trace ++
        (forWhat E t ast ast.What [] (txnScope E txn w).world).trace ++ post ∧
      runsOn post = [] ∧ generated post = [] ∧ getKeys post = [] := by
  rw [execute_of_scope E txn ast w t loc hS]
  cases loc with
  | false =>
    simp only [runDeferred, Bool.false_eq_true, if_false]
    split <;> exact ⟨rfl, [], by simp, rfl, rfl, rfl⟩
  | true =>
    simp only [runDeferred, if_true]
    split
    · exact ⟨rfl, [Event.Rollback t], rfl, rfl, rfl, rfl⟩
    · exact ⟨rfl, [Event.Commit t
          (E.Commit t (forWhat E t ast ast.What [] (txnScope E txn w).world).world).1,
        Event.Rollback t], by simp, rfl, rfl, rfl⟩

/-- The pipeline `create` does not call `Get`. -/
theorem create_quietGet {σ : Type} (E : Env σ) (doc : item.Doc)
    (ast : sql.CreateStatement) (w : σ) :
    create E.quietGet doc ast w = create E doc ast w := rfl

/-- What `Get` returns when it reports no error. -/
theorem quietGet_Get {σ : Type} (E : Env σ) (t : TX) (k : Bytes) (w : σ) :
    E.quietGet.Get t k w = (((E.Get t k w).1.1, none), (E.Get t k w).2) := rfl

/-- The other collaborators are unchanged. -/
theorem quietGet_rest {σ : Type} (E : Env σ) :
    E.quietGet.Encode = E.Encode ∧ E.quietGet.NewV4 = E.NewV4 ∧
    E.quietGet.NewV5 = E.NewV5 ∧ E.quietGet.UUIDString = E.UUIDString ∧
    E.quietGet.Txn = E.Txn ∧ E.quietGet.Commit = E.Commit ∧
    E.quietGet.Rollback = E.Rollback :=
  ⟨rfl, rfl, rfl, rfl, rfl, rfl, rfl⟩

/-- The loop returns the same and leaves the same world when `Get` reports no
error. -/
theorem forWhat_quietGet {σ : Type} (E : Env σ) (t : TX) (ast : sql.CreateStatement)
    (l : List sql.Expr) (out : List Val) (w : σ) :
    (forWhat E.quietGet t ast l out w).val = (forWhat E t ast l out w).val ∧
    (forWhat E.quietGet t ast l out w).world = (forWhat E t ast l out w).world := by
  obtain ⟨q1, q2, q3, q4, _, _, _⟩ := quietGet_rest E
  induction l generalizing out w with
  | nil => simp [forWhat]
  | cons x rest ih =>
    cases x with
    | Thing TB ID =>
      simp only [forWhat, create_quietGet, quietGet_Get, q1]
      split <;> rename_i h1 <;> simp only [h1]
      · exact ⟨trivial, trivial⟩
      · exact ih _ _
    | Table TB =>
      simp only [forWhat, create_quietGet, quietGet_Get, q1, q2, q3, q4]
      split <;> rename_i h1 <;> simp only [h1]
      · exact ⟨trivial, trivial⟩
      · exact ih _ _
    | Batch TB IDs =>
      simp only [forWhat]
      exact ih _ _
    | Other tag =>
      simp only [forWhat]
      exact ih _ _

/-- The scope of a call is the same when `Get` reports no error. -/
theorem txnScope_quietGet {σ : Type} (E : Env σ) (txn : Option TX) (w : σ) :
    txnScope E.quietGet txn w = txnScope E txn w := rfl

/-- The executor returns the same and leaves the same world when `Get` reports no
error. -/
theorem execute_quietGet {σ : Type} (E : Env σ) (txn : Option TX)
    (ast : sql.CreateStatement) (w : σ) :
    (executeCreateStatement E.quietGet txn ast w).val =
      (executeCreateStatement E txn ast w).val ∧
    (executeCreateStatement E.quietGet txn ast w).world =
      (executeCreateStatement E txn ast w).world := by
  cases hS : (txnScope E txn w).val with
  | error e =>
    unfold executeCreateStatement
    simp only [txnScope_quietGet, hS]
    exact ⟨trivial, trivial⟩
  | ok p =>
    obtain ⟨t, loc⟩ := p
    obtain ⟨f1, f2⟩ := forWhat_quietGet E t ast ast.What [] (txnScope E txn w).world
    obtain ⟨_, _, _, _, _, q6, q7⟩ := quietGet_rest E
    rw [execute_of_scope E txn ast w t loc hS,
      execute_of_scope E.quietGet txn ast w t loc (by rw [txnScope_quietGet, hS])]
    simp only [txnScope_quietGet, f1, f2, q6, q7, runDeferred]
    cases loc <;> split <;> simp

/-- C3: a call with a caller-supplied transaction calls neither `Commit` nor
`Rollback`, whatever the statement, the collaborators and the outcome of the call
(success or error); its calls are exactly those of the loop. -/
theorem borrowed_txn_never_ended {σ : Type} (E : Env σ) (t : TX)
    (ast : sql.CreateStatement) (w : σ) :
    commits (executeCreateStatement E (some t) ast w).trace = 0 ∧
    rollbacks (executeCreateStatement E (some t) ast w).trace = 0 ∧
    (executeCreateStatement E (some t) ast w).trace =
      (forWhat E t ast ast.What [] w).trace := by
  have hc := forWhat_counts E t ast ast.What [] w
  rw [execute_of_scope E (some t) ast w t false rfl]
  simp only [txnScope_some, runDeferred, Bool.false_eq_true, if_false, List.nil_append]
  split <;> exact ⟨hc.1, hc.2, rfl⟩

/-- C1 (as the code has it): when `txn` is nil and `db.Txn` succeeds, `Rollback`
is called exactly once on every path, as the last call of all (it is deferred);
`Commit` is called exactly once when the call returns no error, right before that
`Rollback`, and is not called when the call returns an error. -/
theorem owned_txn_commit_then_rollback {σ : Type} (E : Env σ)
    (ast : sql.CreateStatement) (w w0 : σ) (t : TX)
    (h : E.Txn true w = (Except.ok t, w0)) :
    rollbacks (executeCreateStatement E none ast w).trace = 1 ∧
    (executeCreateStatement E none ast w).trace.getLast? = some (Event.Rollback t) ∧
    ((executeCreateStatement E none ast w).val.2 = none →
      commits (executeCreateStatement E none ast w).trace = 1 ∧
      ∃ ce, (executeCreateStatement E none ast w).trace.dropLast.getLast? =
        some (Event.Commit t ce)) ∧
    (∀ e, (executeCreateStatement E none ast w).val.2 = some e →
      commits (executeCreateStatement E none ast w).trace = 0) := by
  have hs := txnScope_none_ok E w w0 t h
  have hc := forWhat_counts E t ast ast.What [] w0
  rw [execute_of_scope E none ast w t true (by rw [hs])]
  simp only [hs, runDeferred, if_true]
  cases he : (forWhat E t ast ast.What [] w0).val.2 with
  | some e1 =>
    simp only []
    refine ⟨?_, ?_, ?_, ?_⟩
    · simp only [rollbacks_append, hc.2]
      rfl
    · rw [List.getLast?_concat]
    · intro h1
      rw [he] at h1
      cases h1
    · intro e _
      simp only [commits_append, hc.1]
      rfl
  | none =>
    simp only []
    refine ⟨?_, ?_, ?_, ?_⟩
    · simp only [rollbacks_append, hc.2]
      rfl
    · rw [List.getLast?_concat]
    · intro _
      refine ⟨?_, ?_⟩
      · simp only [commits_append, hc.1]
        rfl
      · refine ⟨(E.Commit t (forWhat E t ast ast.What [] w0).world).1, ?_⟩
        rw [List.dropLast_concat, List.getLast?_concat]
    · intro e h1
      rw [he] at h1
      cases h1

/-- Witness of `owned_txn_commit_then_rollback`: a statement creating record
`person:a` with the sample collaborators. -/
theorem owned_txn_commit_then_rollback_witness :
    rollbacks (executeCreateStatement demoEnv none
      (demoAst [sql.Expr.Thing "person" "a"]) 0).trace = 1 ∧
    (executeCreateStatement demoEnv none
      (demoAst [sql.Expr.Thing "person" "a"]) 0).trace.getLast? =
        some (Event.Rollback 7) ∧
    ((executeCreateStatement demoEnv none
      (demoAst [sql.Expr.Thing "person" "a"]) 0).val.2 = none →
      commits (executeCreateStatement demoEnv none
        (demoAst [sql.Expr.Thing "person" "a"]) 0).trace = 1 ∧
      ∃ ce, (executeCreateStatement demoEnv none
        (demoAst [sql.Expr.Thing "person" "a"]) 0).trace.dropLast.getLast? =
          some (Event.Commit 7 ce)) ∧
    (∀ e, (executeCreateStatement demoEnv none
      (demoAst [sql.Expr.Thing "person" "a"]) 0).val.2 = some e →
      commits (executeCreateStatement demoEnv none
        (demoAst [sql.Expr.Thing "person" "a"]) 0).trace = 0) :=
  owned_txn_commit_then_rollback demoEnv (demoAst [sql.Expr.Thing "person" "a"]) 0 0 7 rfl

/-- C1 fails as stated: with `txn` nil, `db.Txn` succeeding and an empty target
list the call succeeds, and both `Commit` and `Rollback` are called on the owned
transaction, `Rollback` after `Commit`. -/
theorem owned_txn_success_also_rolls_back :
    (demoEnv.Txn true 0).1 = Except.ok 7 ∧
    (executeCreateStatement demoEnv none (demoAst []) 0).val = ([], none) ∧
    (executeCreateStatement demoEnv none (demoAst []) 0).trace =
      [Event.Txn true none (some 7), Event.Commit 7 none, Event.Rollback 7] ∧
    commits (executeCreateStatement demoEnv none (demoAst []) 0).trace = 1 ∧
    rollbacks (executeCreateStatement demoEnv none (demoAst []) 0).trace = 1 := by
  refine ⟨rfl, ?_, ?_, ?_, ?_⟩ <;> decide

/-- C2: let the transaction be available, and let `x` be the first target whose
pipeline returns an error `e` (the loop over the targets before `x` ends without
error).  Then the call returns `e` and the nil result sequence; its calls are those
of opening the transaction, of the targets before `x` and of the pipeline of `x`,
followed by the deferred `Rollback` if the transaction is owned, so nothing is
called for a later target; the failing stage call is the last call of the pipeline
of `x`; and `Commit` is not called. -/
theorem first_pipeline_error_aborts {σ : Type} (E : Env σ) (txn : Option TX)
    (ast : sql.CreateStatement) (w : σ) (t : TX) (loc : Bool)
    (pre post : List sql.Expr) (x : sql.Expr)
    (r : Ret σ (Option Val × Option Err)) (e : Err)
    (hS : (txnScope E txn w).val = Except.ok (t, loc))
    (hW : ast.What = pre ++ x :: post)
    (hpre : (forWhat E t ast pre [] (txnScope E txn w).world).val.2 = none)
    (hx : runTarget E t ast x
      (forWhat E t ast pre [] (txnScope E txn w).world).world = some r)
    (he : r.val.2 = some e) :
    (executeCreateStatement E txn ast w).val = ([], some e) ∧
    (executeCreateStatement E txn ast w).trace =
      (txnScope E txn w).trace ++
        (forWhat E t ast pre [] (txnScope E txn w).world).trace ++ r.trace ++
        (if loc then [Event.Rollback t] else []) ∧
    r.trace.getLast?.bind Event.failure = some e ∧
    commits (executeCreateStatement E txn ast w).trace = 0 := by
  have hf := forWhat_first_error E t ast pre post x [] (txnScope E txn w).world r e hpre hx he
  have hl := (runTarget_last E t ast x _ r hx).1
  have hc1 := (txnScope_counts E txn w).1
  have hc2 := (forWhat_counts E t ast pre [] (txnScope E txn w).world).1
  have hc3 : commits r.trace = 0 := by
    unfold commits
    rw [List.countP_eq_zero]
    intro ev hev
    simp [(runTarget_no_end E t ast x _ r hx ev hev).1]
  rw [execute_of_scope E txn ast w t loc hS, hW, hf]
  simp only [runDeferred]
  cases loc with
  | false =>
    simp only [Bool.false_eq_true, if_false, List.append_nil, List.append_assoc]
    refine ⟨trivial, trivial, ?_, ?_⟩
    · rw [hl, he]
    · simp only [commits_append, hc1, hc2, hc3]
  | true =>
    simp only [if_true, List.append_assoc]
    refine ⟨trivial, trivial, ?_, ?_⟩
    · rw [hl, he]
    · simp only [commits_append, hc1, hc2, hc3]
      rfl

/-- Witness of `first_pipeline_error_aborts`: the sample statement on `person:a`,
`person:x`, `person:c` without transaction; `StoreIndex` fails on `person:x`. -/
theorem first_pipeline_error_aborts_witness :
    (executeCreateStatement demoEnv none
      (demoAst [sql.Expr.Thing "person" "a", sql.Expr.Thing "person" "x",
        sql.Expr.Thing "person" "c"]) 0).val = ([], some "index failed") ∧
    (executeCreateStatement demoEnv none
      (demoAst [sql.Expr.Thing "person" "a", sql.Expr.Thing "person" "x",
        sql.Expr.Thing "person" "c"]) 0).trace =
      (txnScope demoEnv none 0).trace ++
        (forWhat demoEnv 7
          (demoAst [sql.Expr.Thing "person" "a", sql.Expr.Thing "person" "x",
            sql.Expr.Thing "person" "c"])
          [sql.Expr.Thing "person" "a"] [] (txnScope demoEnv none 0).world).trace ++
        (create demoEnv (item.New none 7 ⟨"kv", "ns", "db", "person", "x"⟩)
          (demoAst [sql.Expr.Thing "person" "a", sql.Expr.Thing "person" "x",
            sql.Expr.Thing "person" "c"]) 0).trace.cons (Event.Get 7 [6, 1] none) ++
        (if true then [Event.Rollback 7] else []) ∧
    ((create demoEnv (item.New none 7 ⟨"kv", "ns", "db", "person", "x"⟩)
          (demoAst [sql.Expr.Thing "person" "a", sql.Expr.Thing "person" "x",
            sql.Expr.Thing "person" "c"]) 0).trace.cons
        (Event.Get 7 [6, 1] none)).getLast?.bind Event.failure = some "index failed" ∧
    commits (executeCreateStatement demoEnv none
      (demoAst [sql.Expr.Thing "person" "a", sql.Expr.Thing "person" "x",
        sql.Expr.Thing "person" "c"]) 0).trace = 0 :=
  first_pipeline_error_aborts demoEnv none
    (demoAst [sql.Expr.Thing "person" "a", sql.Expr.Thing "person" "x",
      sql.Expr.Thing "person" "c"]) 0 7 true
    [sql.Expr.Thing "person" "a"] [sql.Expr.Thing "person" "c"]
    (sql.Expr.Thing "person" "x")
    ⟨(create demoEnv (item.New none 7 ⟨"kv", "ns", "db", "person", "x"⟩)
        (demoAst [sql.Expr.Thing "person" "a", sql.Expr.Thing "person" "x",
          sql.Expr.Thing "person" "c"]) 0).val, 0,
      (create demoEnv (item.New none 7 ⟨"kv", "ns", "db", "person", "x"⟩)
        (demoAst [sql.Expr.Thing "person" "a", sql.Expr.Thing "person" "x",
          sql.Expr.Thing "person" "c"]) 0).trace.cons (Event.Get 7 [6, 1] none)⟩
    "index failed" rfl rfl (by decide) rfl (by decide)

/-- C4: for a document whose `Merge` returns no error and whose `Allow("CREATE")`
is false, `create` returns `(nil, nil)` after calling `Merge` and `Allow` only (no
`StoreIndex`, `StartThing`, `StorePatch` or `Yield`).  When the executor built the
document for a target `x`, the loop goes on with the next target with the results
unchanged and no error; and in a call that owns its transaction and whose first
target is `x`, what is returned is what the loop over the other targets returns,
and `Commit` is called once whenever those return no error. -/
theorem denied_document_is_skipped {σ : Type} (E : Env σ) (ast : sql.CreateStatement)
    (doc : item.Doc) (w : σ)
    (hM : (E.Merge doc ast.Data w).1 = none)
    (hA : (E.Allow doc "CREATE" (E.Merge doc ast.Data w).2).1 = false) :
    (create E doc ast w).val = (none, none) ∧
    (create E doc ast w).trace =
      [Event.Merge doc ast.Data none, Event.Allow doc "CREATE" false] ∧
    (create E doc ast w).trace.filterMap Event.stage = [Stage.Merge, Stage.Allow] ∧
    (∀ (t : TX) (x : sql.Expr) (rest : List sql.Expr) (out : List Val) (w0 : σ)
        (dtr : List Event),
      docOf E t ast x w0 = some ⟨doc, w, dtr⟩ →
      (forWhat E t ast (x :: rest) out w0).val =
        (forWhat E t ast rest out (create E doc ast w).world).val ∧
      (forWhat E t ast (x :: rest) out w0).trace =
        dtr ++ [Event.Merge doc ast.Data none, Event.Allow doc "CREATE" false] ++
          (forWhat E t ast rest out (create E doc ast w).world).trace) ∧
    (∀ (t : TX) (x : sql.Expr) (rest : List sql.Expr) (w0 w1 : σ) (dtr : List Event),
      E.Txn true w0 = (Except.ok t, w1) →
      docOf E t ast x w1 = some ⟨doc, w, dtr⟩ →
      ast.What = x :: rest →
      (executeCreateStatement E none ast w0).val =
        (forWhat E t ast rest [] (create E doc ast w).world).val ∧
      ((forWhat E t ast rest [] (create E doc ast w).world).val.2 = none →
        commits (executeCreateStatement E none ast w0).trace = 1)) := by
  have hv : (create E doc ast w).val = (none, none) := by
    unfold create
    simp only [hM, hA]
    rfl
  have ht : (create E doc ast w).trace =
      [Event.Merge doc ast.Data none, Event.Allow doc "CREATE" false] := by
    unfold create
    simp only [hM, hA]
    rfl
  have hloop : ∀ (t : TX) (x : sql.Expr) (rest : List sql.Expr) (out : List Val) (w0 : σ)
      (dtr : List Event), docOf E t ast x w0 = some ⟨doc, w, dtr⟩ →
      forWhat E t ast (x :: rest) out w0 =
        ⟨(forWhat E t ast rest out (create E doc ast w).world).val,
         (forWhat E t ast rest out (create E doc ast w).world).world,
         dtr ++ [Event.Merge doc ast.Data none, Event.Allow doc "CREATE" false] ++
          (forWhat E t ast rest out (create E doc ast w).world).trace⟩ := by
    intro t x rest out w0 dtr hd
    rw [forWhat_cons]
    simp only [runTarget, hd, hv, ht]
  refine ⟨hv, ht, ?_, ?_, ?_⟩
  · rw [ht]
    rfl
  · intro t x rest out w0 dtr hd
    rw [hloop t x rest out w0 dtr hd]
    exact ⟨rfl, rfl⟩
  · intro t x rest w0 w1 dtr hT hd hW
    have hl := hloop t x rest [] w1 dtr hd
    by_cases hr : (forWhat E t ast rest [] (create E doc ast w).world).val.2 = none
    · have hl2 : (forWhat E t ast ast.What [] w1).val.2 = none := by
        rw [hW, hl]
        exact hr
      obtain ⟨k1, _, k3⟩ := execute_owned_ok E ast w0 w1 t hT hl2
      refine ⟨?_, fun _ => k3⟩
      rw [k1, hW, hl]
    · refine ⟨?_, fun h => absurd h hr⟩
      rw [execute_of_scope E none ast w0 t true (by rw [txnScope_none_ok E w0 w1 t hT])]
      simp only [txnScope_none_ok E w0 w1 t hT, hW, hl, runDeferred, if_true]
      split <;> rfl

/-- Witness of `denied_document_is_skipped`: the sample statement on the denied
record `person:b`, without transaction. -/
theorem denied_document_is_skipped_witness :
    (create demoEnv (item.New none 7 ⟨"kv", "ns", "db", "person", "b"⟩)
      (demoAst [sql.Expr.Thing "person" "b"]) 0).val = (none, none) ∧
    (executeCreateStatement demoEnv none (demoAst [sql.Expr.Thing "person" "b"]) 0).val =
      ([], none) ∧
    commits (executeCreateStatement demoEnv none
      (demoAst [sql.Expr.Thing "person" "b"]) 0).trace = 1 :=
  have h := denied_document_is_skipped demoEnv (demoAst [sql.Expr.Thing "person" "b"])
    (item.New none 7 ⟨"kv", "ns", "db", "person", "b"⟩) 0 rfl (by decide)
  have h5 := h.2.2.2.2 7 (sql.Expr.Thing "person" "b") [] 0 0
    [Event.Get 7 [6, 1] none] rfl rfl rfl
  ⟨h.1, h5.1, h5.2 rfl⟩

/-- C6: when the transaction is available and the pipelines of the statement all
succeed, the call returns no error and its result sequence is the list of the
yields that are present, in target order, of one pipeline per single-record or
whole-table target; so its length is at most the number of targets.  Targets of
another variant have no pipeline, and in every case the call on the statement
without them returns the same, leaves the same world and makes the same calls. -/
theorem results_are_present_yields_in_order {σ : Type} (E : Env σ) (txn : Option TX)
    (ast : sql.CreateStatement) (w : σ) (t : TX) (loc : Bool)
    (hS : (txnScope E txn w).val = Except.ok (t, loc))
    (hP : ∀ p ∈ pipelines E t ast ast.What (txnScope E txn w).world, p.2 = none) :
    (executeCreateStatement E txn ast w).val =
      ((pipelines E t ast ast.What (txnScope E txn w).world).filterMap Prod.fst, none) ∧
    (pipelines E t ast ast.What (txnScope E txn w).world).length =
      ast.What.countP isTarget ∧
    (executeCreateStatement E txn ast w).val.1.length ≤ ast.What.length ∧
    executeCreateStatement E txn { ast with What := ast.What.filter isTarget } w =
      executeCreateStatement E txn ast w := by
  have hf := forWhat_pipelines E t ast ast.What [] (txnScope E txn w).world hP
  have hlen := pipelines_length E t ast ast.What (txnScope E txn w).world
  have hval : (executeCreateStatement E txn ast w).val =
      ((pipelines E t ast ast.What (txnScope E txn w).world).filterMap Prod.fst, none) := by
    rw [execute_of_scope E txn ast w t loc hS]
    simp only [hf, List.nil_append, runDeferred]
    cases loc <;> simp
  refine ⟨hval, hlen, ?_, ?_⟩
  · rw [hval]
    calc ((pipelines E t ast ast.What (txnScope E txn w).world).filterMap Prod.fst).length
        ≤ (pipelines E t ast ast.What (txnScope E txn w).world).length :=
          List.length_filterMap_le _ _
      _ = ast.What.countP isTarget := hlen
      _ ≤ ast.What.length := List.countP_le_length _
  · unfold executeCreateStatement
    simp only [forWhat_congr, forWhat_filter]

/-- Witness of `results_are_present_yields_in_order`: the sample statement on
`person:a`, the denied `person:b`, a target of another variant and the table
`person`, without transaction. -/
theorem results_are_present_yields_in_order_witness :
    (executeCreateStatement demoEnv none
      (demoAst [sql.Expr.Thing "person" "a", sql.Expr.Thing "person" "b",
        sql.Expr.Other 5, sql.Expr.Table "person"]) 0).val = (["a", "0"], none) :=
  (results_are_present_yields_in_order demoEnv none
    (demoAst [sql.Expr.Thing "person" "a", sql.Expr.Thing "person" "b",
      sql.Expr.Other 5, sql.Expr.Table "person"]) 0 7 true rfl (by decide)).1

/-- C8: in every call the pipelines run on the addresses of an initial segment
of the targets, and the keys read through `Get` are exactly the encoded addresses
of those runs, one read per run (no other record is read).  A single-record target
stands for the address `(ast.KV, ast.NS, ast.DB, TB, ID)`, a whole-table target for
`(ast.KV, ast.NS, ast.DB, TB, g)` with `g` made from one uuid generated for it.
When the transaction is available and no stage call fails, the runs are on the
addresses of all the targets, one uuid is generated per whole-table target, and the
number of runs is the number of single-record plus whole-table targets. -/
theorem one_pipeline_run_per_target {σ : Type} (E : Env σ) (txn : Option TX)
    (ast : sql.CreateStatement) (w : σ) :
    (∃ k, runsOn (executeCreateStatement E txn ast w).trace =
      addresses E ast (ast.What.take k)
        (generated (executeCreateStatement E txn ast w).trace)) ∧
    getKeys (executeCreateStatement E txn ast w).trace =
      (runsOn (executeCreateStatement E txn ast w).trace).map E.Encode ∧
    (∀ (t : TX) (loc : Bool), (txnScope E txn w).val = Except.ok (t, loc) →
      (∀ ev ∈ (executeCreateStatement E txn ast w).trace, ev.failure = none) →
      runsOn (executeCreateStatement E txn ast w).trace =
        addresses E ast ast.What (generated (executeCreateStatement E txn ast w).trace) ∧
      (generated (executeCreateStatement E txn ast w).trace).length =
        ast.What.countP isTable ∧
      (runsOn (executeCreateStatement E txn ast w).trace).length =
        ast.What.countP isThing + ast.What.countP isTable) := by
  obtain ⟨s1, s2, s3⟩ := txnScope_proj E txn w
  cases hS : (txnScope E txn w).val with
  | error e =>
    have ht : (executeCreateStatement E txn ast w).trace = (txnScope E txn w).trace := by
      unfold executeCreateStatement
      simp only [hS]
    rw [ht, s1, s2, s3]
    refine ⟨⟨0, by simp [addresses]⟩, rfl, ?_⟩
    intro t loc h
    cases h
  | ok p =>
    obtain ⟨t, loc⟩ := p
    obtain ⟨hv, post, ht, q1, q2, q3⟩ := execute_trace E txn ast w t loc hS
    obtain ⟨⟨k, i1⟩, i2, i3⟩ := forWhat_runs E t ast ast.What [] (txnScope E txn w).world
    have r1 : runsOn (executeCreateStatement E txn ast w).trace =
        runsOn (forWhat E t ast ast.What [] (txnScope E txn w).world).trace := by
      rw [ht, runsOn_append, runsOn_append, s1, q1]
      simp
    have r2 : generated (executeCreateStatement E txn ast w).trace =
        generated (forWhat E t ast ast.What [] (txnScope E txn w).world).trace := by
      rw [ht, generated_append, generated_append, s2, q2]
      simp
    have r3 : getKeys (executeCreateStatement E txn ast w).trace =
        getKeys (forWhat E t ast ast.What [] (txnScope E txn w).world).trace := by
      rw [ht, getKeys_append, getKeys_append, s3, q3]
      simp
    refine ⟨⟨k, by rw [r1, r2, i1]⟩, by rw [r3, r1, i2], ?_⟩
    intro t1 loc1 h1 hN
    cases h1
    have hok : (forWhat E t ast ast.What [] (txnScope E txn w).world).val.2 = none := by
      cases he : (forWhat E t ast ast.What [] (txnScope E txn w).world).val.2 with
      | none => rfl
      | some e =>
        obtain ⟨ev, hev, hf⟩ := forWhat_error_in_trace E t ast ast.What []
          (txnScope E txn w).world e he
        have hmem : ev ∈ (executeCreateStatement E txn ast w).trace := by
          rw [ht]
          exact List.mem_append_left _ (List.mem_append_right _ hev)
        rw [hN ev hmem] at hf
        cases hf
    obtain ⟨j1, j2, j3⟩ := i3 hok
    exact ⟨by rw [r1, r2, j1], by rw [r2, j2], by rw [r1, j3]⟩

/-- Witness of `one_pipeline_run_per_target`: the sample statement on `person:a`,
a target of another variant, the table `person` twice, without transaction. -/
theorem one_pipeline_run_per_target_witness :
    runsOn (executeCreateStatement demoEnv none
      (demoAst [sql.Expr.Thing "person" "a", sql.Expr.Other 1, sql.Expr.Table "person",
        sql.Expr.Table "person"]) 0).trace =
      addresses demoEnv
        (demoAst [sql.Expr.Thing "person" "a", sql.Expr.Other 1, sql.Expr.Table "person",
          sql.Expr.Table "person"])
        [sql.Expr.Thing "person" "a", sql.Expr.Other 1, sql.Expr.Table "person",
          sql.Expr.Table "person"]
        (generated (executeCreateStatement demoEnv none
          (demoAst [sql.Expr.Thing "person" "a", sql.Expr.Other 1,
            sql.Expr.Table "person", sql.Expr.Table "person"]) 0).trace) ∧
    (generated (executeCreateStatement demoEnv none
      (demoAst [sql.Expr.Thing "person" "a", sql.Expr.Other 1, sql.Expr.Table "person",
        sql.Expr.Table "person"]) 0).trace).length = 2 ∧
    (runsOn (executeCreateStatement demoEnv none
      (demoAst [sql.Expr.Thing "person" "a", sql.Expr.Other 1, sql.Expr.Table "person",
        sql.Expr.Table "person"]) 0).trace).length = 1 + 2 :=
  (one_pipeline_run_per_target demoEnv none
    (demoAst [sql.Expr.Thing "person" "a", sql.Expr.Other 1, sql.Expr.Table "person",
      sql.Expr.Table "person"]) 0).2.2 7 true rfl (by decide)

/-- C7, on the code: a statement whose `What` holds one batch of the two records
`person:a` (authorized) and `person:b` (denied), run without transaction.  No
pipeline runs and no key is read, the result sequence is empty, and the owned
transaction is committed; the same two records given as two single-record
targets run two pipelines and return the one entry `"a"`. -/
theorem batch_target_runs_no_pipeline :
    (executeCreateStatement demoEnv none
      (demoAst [sql.Expr.Batch "person" ["a", "b"]]) 0).val = ([], none) ∧
    (executeCreateStatement demoEnv none
      (demoAst [sql.Expr.Batch "person" ["a", "b"]]) 0).trace =
      [Event.Txn true none (some 7), Event.Commit 7 none, Event.Rollback 7] ∧
    runsOn (executeCreateStatement demoEnv none
      (demoAst [sql.Expr.Batch "person" ["a", "b"]]) 0).trace = [] ∧
    (executeCreateStatement demoEnv none
      (demoAst [sql.Expr.Thing "person" "a", sql.Expr.Thing "person" "b"]) 0).val =
      (["a"], none) ∧
    (runsOn (executeCreateStatement demoEnv none
      (demoAst [sql.Expr.Thing "person" "a", sql.Expr.Thing "person" "b"]) 0).trace).length
      = 2 := by
  refine ⟨?_, ?_, ?_, ?_, ?_⟩ <;> decide

/-- C9 (as the code has it): when `txn` is nil and `db.Txn` returns an error, the
call returns that same error and the nil result sequence, and calls nothing else.
The error reported by a `Get` is discarded: every call returns the same results
and the same error, and leaves the same world, as it does with a `Get` that
returns the same value without reporting an error. -/
theorem only_open_error_is_returned {σ : Type} (E : Env σ) (ast : sql.CreateStatement)
    (w w0 : σ) (e : Err) (h : E.Txn true w = (Except.error e, w0)) :
    executeCreateStatement E none ast w =
      ⟨([], some e), w0, [Event.Txn true (some e) none]⟩ ∧
    (∀ (txn : Option TX) (ast1 : sql.CreateStatement) (w1 : σ),
      (executeCreateStatement E.quietGet txn ast1 w1).val =
        (executeCreateStatement E txn ast1 w1).val ∧
      (executeCreateStatement E.quietGet txn ast1 w1).world =
        (executeCreateStatement E txn ast1 w1).world) := by
  refine ⟨?_, fun txn ast1 w1 => execute_quietGet E txn ast1 w1⟩
  have hs := txnScope_none_error E w w0 e h
  unfold executeCreateStatement
  simp only [hs]

/-- Witness of `only_open_error_is_returned`: the sample collaborators whose
`db.Txn` fails. -/
theorem only_open_error_is_returned_witness :
    (demoNoTxn.Txn true 0).1 = Except.error "txn failed" ∧
    (executeCreateStatement demoNoTxn none
      (demoAst [sql.Expr.Thing "person" "a"]) 0).val = ([], some "txn failed") ∧
    (executeCreateStatement demoNoTxn none
      (demoAst [sql.Expr.Thing "person" "a"]) 0).trace =
      [Event.Txn true (some "txn failed") none] :=
  have h := (only_open_error_is_returned demoNoTxn
    (demoAst [sql.Expr.Thing "person" "a"]) 0 0 "txn failed" rfl).1
  ⟨rfl, congrArg Ret.val h, congrArg Ret.trace h⟩

/-- C9 fails as stated: with collaborators whose `Get` reports `"get failed"` and
whose `Commit` reports `"commit failed"`, the call on the single record `person:a`
returns the result `"a"` and no error. -/
theorem get_and_commit_errors_not_returned :
    (demoFaulty.Get 7 [6, 1] 0).1.2 = some "get failed" ∧
    (demoFaulty.Commit 7 0).1 = some "commit failed" ∧
    Event.Get 7 [6, 1] (some "get failed") ∈
      (executeCreateStatement demoFaulty none
        (demoAst [sql.Expr.Thing "person" "a"]) 0).trace ∧
    Event.Commit 7 (some "commit failed") ∈
      (executeCreateStatement demoFaulty none
        (demoAst [sql.Expr.Thing "person" "a"]) 0).trace ∧
    (executeCreateStatement demoFaulty none
      (demoAst [sql.Expr.Thing "person" "a"]) 0).val = (["a"], none) := by
  refine ⟨rfl, rfl, ?_, ?_, ?_⟩ <;> decide

/-- C10: when the `"vars"` slot of the context holds an allocated map `vars`,
`rpc.Let` does not panic and returns a nil error and the updated map; reading the
`"vars"` slot of the context after the call gives that same map; the map has no
entry for `key` when the value is the RPC null value and maps `key` to the value
otherwise, every other key has the entry it has in `vars`, and every other slot of
the context is unchanged. -/
theorem let_updates_vars (c : Context) (vars : Vars) (key : String) (val : Value)
    (h : c.Get "vars" = some (Slot.Vars (some vars))) :
    ∃ vars1 : Vars,
      rpc.Let c key val =
        some ((some vars1, none), c.Set "vars" (Slot.Vars (some vars1))) ∧
      (c.Set "vars" (Slot.Vars (some vars1))).Get "vars" =
        some (Slot.Vars (some vars1)) ∧
      (val = Value.RPCNull → vars1 key = none) ∧
      (val ≠ Value.RPCNull → vars1 key = some val) ∧
      (∀ k, k ≠ key → vars1 k = vars k) ∧
      (∀ k, k ≠ "vars" → (c.Set "vars" (Slot.Vars (some vars1))).Get k = c.Get k) := by
  cases val with
  | RPCNull =>
    refine ⟨vars.delete key, ?_, ?_, ?_, ?_, ?_, ?_⟩
    · simp only [rpc.Let, h]
    · simp [Context.Set, Context.Get]
    · intro _
      simp [Vars.delete]
    · intro hne
      exact absurd rfl hne
    · intro k hk
      simp [Vars.delete, hk]
    · intro k hk
      simp [Context.Set, Context.Get, hk]
  | Other v =>
    refine ⟨vars.set key (Value.Other v), ?_, ?_, ?_, ?_, ?_, ?_⟩
    · simp only [rpc.Let, h]
    · simp [Context.Set, Context.Get]
    · intro hv
      cases hv
    · intro _
      simp [Vars.set]
    · intro k hk
      simp [Vars.set, hk]
    · intro k hk
      simp [Context.Set, Context.Get, hk]

/-- Witness of `let_updates_vars`: setting `"b"` in the sample context. -/
theorem let_updates_vars_witness :
    ∃ vars1 : Vars,
      rpc.Let demoContext "b" (Value.Other "2") =
        some ((some vars1, none), demoContext.Set "vars" (Slot.Vars (some vars1))) ∧
      (demoContext.Set "vars" (Slot.Vars (some vars1))).Get "vars" =
        some (Slot.Vars (some vars1)) ∧
      (Value.Other "2" = Value.RPCNull → vars1 "b" = none) ∧
      (Value.Other "2" ≠ Value.RPCNull → vars1 "b" = some (Value.Other "2")) ∧
      (∀ k, k ≠ "b" →
        vars1 k = (fun x => if x = "a" then some (Value.Other "1") else none) k) ∧
      (∀ k, k ≠ "vars" →
        (demoContext.Set "vars" (Slot.Vars (some vars1))).Get k = demoContext.Get k) :=
  let_updates_vars demoContext
    (fun x => if x = "a" then some (Value.Other "1") else none) "b" (Value.Other "2") rfl

end Surreal
